import Mathlib

/-!
Verification of the permission/policy validation engine of
AlphaSense-Engineering/privatecloud-cli against its natural-language
specification.

The definitions are shallow embeddings of the Go source:
* `pkg/handler/awscrossplanerolechecker/awscrossplanerolechecker.go`
  (policy document model, polymorphic Action/NotAction codec, placeholder
  resolver, superset filter, `validatePolicyDocument`);
* the Azure and GCP Crossplane role checkers
  (`azurecrossplanerolechecker`, `gcpcrossplanerolechecker`);
* the enclosing cloud checkers (`azurechecker`, `gcpchecker`).

The structural differ invoked by `validatePolicyDocument` is the external
library `github.com/r3labs/diff/v3`, whose source is not part of this
repository; it is modelled from the specification (spec sections 3 and 4.3),
as marked on each such definition.

Go `map[string]*string` values are modelled as association lists compared by
key lookup; Go slices as lists; Go `*T` optional fields as `Option`.
-/

namespace PrivateCloud

/-! ## Strings: Go `strings.ReplaceAll`, `strings.Split` -/

/-- One step fuel-indexed replacement over character lists.  With fuel at least
the length of the subject list this computes Go `strings.ReplaceAll`:
leftmost, non-overlapping, the replacement text is not rescanned. -/
def replaceAllFuel (pat rep : List Char) : Nat → List Char → List Char
  | 0, s => s
  | _ + 1, [] => []
  | n + 1, c :: rest =>
    if pat.isPrefixOf (c :: rest) ∧ pat ≠ [] then
      rep ++ replaceAllFuel pat rep n ((c :: rest).drop pat.length)
    else
      c :: replaceAllFuel pat rep n rest

/-- Go `strings.ReplaceAll(s, pat, rep)`. -/
def replaceAll (s pat rep : String) : String :=
  ⟨replaceAllFuel pat.data rep.data s.data.length s.data⟩

/-- Splitting a character list on a separator character; always returns at
least one (possibly empty) chunk, like Go `strings.Split` with a one-character
separator. -/
def splitOnCharList (sep : Char) : List Char → List (List Char)
  | [] => [[]]
  | c :: rest =>
    match splitOnCharList sep rest with
    | [] => [[c]]
    | chunk :: chunks =>
      if c = sep then [] :: chunk :: chunks else (c :: chunk) :: chunks

/-- Go `strings.Split(s, ";")` as used by the GCP Crossplane role checker. -/
def splitSemicolon (s : String) : List String :=
  (splitOnCharList ';' s.data).map (fun cs => ⟨cs⟩)

/-! ## Policy document data model
(`rolePolicyDocument` and friends, awscrossplanerolechecker.go lines 39-159).
Pointer-valued fields are `Option`; `map[string]*string` is an association
list. -/

/-- `rolePolicyCondition`: the `Condition` block of a statement. -/
structure RolePolicyCondition where
  stringEquals : Option (List (String × String))
  stringLike : Option (List (String × String))
deriving DecidableEq, Repr

/-- `rolePolicyPrincipal`: the `Principal` block of a statement. -/
structure RolePolicyPrincipal where
  federated : Option String
deriving DecidableEq, Repr

/-- `rolePolicyStatement`: one statement of an AWS role policy document. -/
structure RolePolicyStatement where
  condition : Option RolePolicyCondition
  effect : Option String
  action : Option (List String)
  notAction : Option (List String)
  principal : Option RolePolicyPrincipal
  resource : Option String
  sid : Option String
deriving DecidableEq, Repr

/-- `rolePolicyDocument`: an AWS role policy document. -/
structure RolePolicyDocument where
  version : Option String
  statement : List RolePolicyStatement
deriving DecidableEq, Repr

/-- `constExpectedAssumeRolePolicyDocument` (awscrossplanerolechecker.go
lines 167-185).  The source comment on it reads "Do not modify this variable,
it is supposed to be constant." -/
def constExpectedAssumeRolePolicyDocument : RolePolicyDocument :=
  { version := some "2012-10-17"
    statement :=
      [{ condition :=
           some { stringEquals := none
                  stringLike :=
                    some [("${OIDC_ID}:sub",
                           "system:serviceaccount:crossplane:aws-*")] }
         effect := some "Allow"
         action := some ["sts:AssumeRoleWithWebIdentity"]
         notAction := none
         principal :=
           some { federated :=
                    some "arn:aws:iam::${ACCOUNT_ID}:oidc-provider/${OIDC_ID}" }
         resource := none
         sid := none }] }

/-! ## Placeholder resolver
(`fillPlaceholdersString` / `fillPlaceholdersMap`, lines 581-611). -/

/-- The configuration values substituted for placeholders:
`envConfig.Spec.ClusterName`, `envConfig.Spec.CloudSpec.AWS.AccountID`,
`envConfig.Spec.CloudSpec.AWS.OIDCURL`. -/
structure EnvContext where
  clusterName : String
  accountID : String
  oidcURL : String
deriving DecidableEq, Repr

/-- `fillPlaceholdersString`: three sequential `strings.ReplaceAll` calls, in
source order `${CLUSTER_NAME}`, `${ACCOUNT_ID}`, `${OIDC_ID}`. -/
def fillPlaceholdersString (c : EnvContext) (s : String) : String :=
  replaceAll (replaceAll (replaceAll s "${CLUSTER_NAME}" c.clusterName)
      "${ACCOUNT_ID}" c.accountID)
    "${OIDC_ID}" c.oidcURL

/-- `fillPlaceholdersMap`: builds a new map applying
`fillPlaceholdersString` to every key and value. -/
def fillPlaceholdersMap (c : EnvContext) (m : List (String × String)) :
    List (String × String) :=
  m.map (fun kv => (fillPlaceholdersString c kv.1, fillPlaceholdersString c kv.2))

/-- The placeholder-resolution loop body of `validatePolicyDocument`
(lines 617-635) applied to one statement: `Principal.Federated`, `Resource`
and the two `Condition` maps are resolved; `Effect`, `Action`, `NotAction`
and `Sid` are untouched. -/
def resolveStatement (c : EnvContext) (s : RolePolicyStatement) :
    RolePolicyStatement :=
  { s with
    principal := s.principal.map
      (fun p => { federated := p.federated.map (fillPlaceholdersString c) })
    resource := s.resource.map (fillPlaceholdersString c)
    condition := s.condition.map
      (fun cond =>
        { stringEquals := cond.stringEquals.map (fillPlaceholdersMap c)
          stringLike := cond.stringLike.map (fillPlaceholdersMap c) }) }

/-- Placeholder resolution over the whole expected document, as performed by
the `for _, stmt := range expectedDocument.Statement` loop. -/
def resolveDocument (c : EnvContext) (d : RolePolicyDocument) :
    RolePolicyDocument :=
  { d with statement := d.statement.map (resolveStatement c) }

/-! ## Structural differ

Modelled from the spec: `validatePolicyDocument` calls `diff.Diff` from the
external library `github.com/r3labs/diff/v3`, whose source is not in this
repository.  The definitions below follow the specification's description of
the Structural Differ (spec section 4.3: recursive field-by-field walk,
CREATE for fields/elements only in the actual document, DELETE for
fields/elements only in the expected one, UPDATE for differing scalars,
collection elements scoped under the collection's path) and of statement
matching (spec section 3: only actual statements whose SID also appears in
the expected template are compared; unmatched actual statements are ignored;
an expected statement with no actual counterpart is a deletion). -/

/-- The kind of a changelog entry. -/
inductive ChangeType where
  | CREATE
  | DELETE
  | UPDATE
deriving DecidableEq, Repr

/-- One changelog entry: kind, path of field identifiers, old and new value
(scalar values only; composite creations/deletions carry no value). -/
structure Change where
  typ : ChangeType
  path : List String
  oldValue : Option String
  newValue : Option String
deriving DecidableEq, Repr

/-- Modelled from the spec: diff of one optional scalar field. -/
def diffOptScalar (path : List String) (e a : Option String) : List Change :=
  match e, a with
  | none, none => []
  | some x, none => [⟨.DELETE, path, some x, none⟩]
  | none, some y => [⟨.CREATE, path, none, some y⟩]
  | some x, some y => if x = y then [] else [⟨.UPDATE, path, some x, some y⟩]

/-- Modelled from the spec: element-wise diff of a string collection
(`Action`/`NotAction`).  Elements only in the actual list are CREATE entries
under the collection's path, elements only in the expected list are DELETE
entries. -/
def diffStringList (path : List String) (e a : List String) : List Change :=
  (a.enum.filterMap fun ix =>
    if ix.2 ∈ e then none
    else some ⟨.CREATE, path ++ [toString ix.1], none, some ix.2⟩)
  ++ (e.enum.filterMap fun ix =>
    if ix.2 ∈ a then none
    else some ⟨.DELETE, path ++ [toString ix.1], some ix.2, none⟩)

/-- First value bound to a key in an association list (a Go map lookup). -/
def lookupValue (m : List (String × String)) (k : String) : Option String :=
  (m.find? (fun kv => kv.1 = k)).map (fun kv => kv.2)

/-- Modelled from the spec: element-wise diff of a condition sub-map
(`Condition.StringEquals`/`Condition.StringLike`).  Keys only in the actual
map are CREATE entries under the map's path, keys only in the expected map
are DELETE entries, keys present in both with differing values are UPDATE
entries. -/
def diffStringMap (path : List String) (e a : List (String × String)) :
    List Change :=
  (a.filterMap fun kv =>
    if (lookupValue e kv.1).isNone then
      some ⟨.CREATE, path ++ [kv.1], none, some kv.2⟩
    else none)
  ++ (e.filterMap fun kv =>
    match lookupValue a kv.1 with
    | none => some ⟨.DELETE, path ++ [kv.1], some kv.2, none⟩
    | some v => if v = kv.2 then none else some ⟨.UPDATE, path ++ [kv.1], some kv.2, some v⟩)

/-- Modelled from the spec: diff of an optional string collection; a
collection present on only one side is a single CREATE/DELETE at the
collection's own path. -/
def diffOptStringList (path : List String) (e a : Option (List String)) :
    List Change :=
  match e, a with
  | none, none => []
  | some _, none => [⟨.DELETE, path, none, none⟩]
  | none, some _ => [⟨.CREATE, path, none, none⟩]
  | some le, some la => diffStringList path le la

/-- Modelled from the spec: diff of an optional condition sub-map. -/
def diffOptStringMap (path : List String)
    (e a : Option (List (String × String))) : List Change :=
  match e, a with
  | none, none => []
  | some _, none => [⟨.DELETE, path, none, none⟩]
  | none, some _ => [⟨.CREATE, path, none, none⟩]
  | some me, some ma => diffStringMap path me ma

/-- Modelled from the spec: diff of the optional `Condition` block. -/
def diffCondition (path : List String) (e a : Option RolePolicyCondition) :
    List Change :=
  match e, a with
  | none, none => []
  | some _, none => [⟨.DELETE, path, none, none⟩]
  | none, some _ => [⟨.CREATE, path, none, none⟩]
  | some ce, some ca =>
    diffOptStringMap (path ++ ["StringEquals"]) ce.stringEquals ca.stringEquals
    ++ diffOptStringMap (path ++ ["StringLike"]) ce.stringLike ca.stringLike

/-- Modelled from the spec: diff of the optional `Principal` block. -/
def diffPrincipal (path : List String) (e a : Option RolePolicyPrincipal) :
    List Change :=
  match e, a with
  | none, none => []
  | some _, none => [⟨.DELETE, path, none, none⟩]
  | none, some _ => [⟨.CREATE, path, none, none⟩]
  | some pe, some pa =>
    diffOptScalar (path ++ ["Federated"]) pe.federated pa.federated

/-- Modelled from the spec: diff of two matched statements, field by field in
struct order, every entry scoped under the given prefix. -/
def diffStatement (pfx : List String) (e a : RolePolicyStatement) :
    List Change :=
  diffCondition (pfx ++ ["Condition"]) e.condition a.condition
  ++ diffOptScalar (pfx ++ ["Effect"]) e.effect a.effect
  ++ diffOptStringList (pfx ++ ["Action"]) e.action a.action
  ++ diffOptStringList (pfx ++ ["NotAction"]) e.notAction a.notAction
  ++ diffPrincipal (pfx ++ ["Principal"]) e.principal a.principal
  ++ diffOptScalar (pfx ++ ["Resource"]) e.resource a.resource
  ++ diffOptScalar (pfx ++ ["Sid"]) e.sid a.sid

/-- The path segment identifying a statement: its SID when present,
otherwise its position in the expected document. -/
def statementKey (i : Nat) (s : RolePolicyStatement) : String :=
  match s.sid with
  | some sid => sid
  | none => toString i

/-- Modelled from the spec: walk of the expected statement list, starting at
absolute position `i`.  Each expected statement is matched against the first
actual statement with the same SID; an expected statement with no counterpart
becomes a DELETE of the whole statement; actual statements whose SID matches
no expected statement are ignored. -/
def diffStatements (actual : List RolePolicyStatement) :
    Nat → List RolePolicyStatement → List Change
  | _, [] => []
  | i, es :: rest =>
    (match actual.find? (fun as => as.sid = es.sid) with
     | none => [⟨.DELETE, ["Statement", statementKey i es], none, none⟩]
     | some as => diffStatement ["Statement", statementKey i es] es as)
    ++ diffStatements actual (i + 1) rest

/-- Modelled from the spec: `diff.Diff(expectedDocument, document)` on role
policy documents. -/
def diffDocument (e a : RolePolicyDocument) : List Change :=
  diffOptScalar ["Version"] e.version a.version
  ++ diffStatements a.statement 0 e.statement

/-! ## Superset filter and `validatePolicyDocument`
(awscrossplanerolechecker.go lines 642-680; faithful to the source's
positional path matching). -/

/-- The filter condition of the changelog loop (lines 665-672): a CREATE
entry whose path starts at `Statement` and either has length 4 with
`Action`/`NotAction` at index 2, or length 5 with `Condition` at index 2, is
dropped (`continue`). -/
def isSupersetCreate (ch : Change) : Bool :=
  ch.typ = ChangeType.CREATE && ch.path.head? = some "Statement"
    && ((ch.path.length = 4
          && (ch.path.get? 2 = some "Action" || ch.path.get? 2 = some "NotAction"))
        || (ch.path.length = 5 && ch.path.get? 2 = some "Condition"))

/-- The filtered changelog built by the loop at lines 663-677. -/
def filterChangelog (cl : List Change) : List Change :=
  cl.filter (fun ch => !isSupersetCreate ch)

/-- `validatePolicyDocument(document, expectedDocument)` (lines 616-680):
resolve placeholders in the expected document, diff it against the actual
document, and drop superset CREATE entries.  An empty result means the
document is accepted. -/
def validatePolicyDocument (c : EnvContext)
    (document expectedDocument : RolePolicyDocument) : List Change :=
  filterChangelog (diffDocument (resolveDocument c expectedDocument) document)

/-- Embedding of the in-place placeholder mutation in
`validatePolicyDocument` (lines 617-635): `expectedDocument` is passed by
value, but its `Statement` field is a slice of pointers shared with the
caller's value, and the loop writes the resolved strings through those
pointers (`*stmt.Principal.Federated = ...`, `*stmt.Resource = ...`,
`stmt.Condition.StringEquals = ...`).  The contents reachable from the
package-level expected-document constant after a call are therefore the
resolved document. -/
def validatePolicyDocumentPostExpected (c : EnvContext)
    (expectedDocument : RolePolicyDocument) : RolePolicyDocument :=
  resolveDocument c expectedDocument

/-! ## Polymorphic Action/NotAction codec
(`UnmarshalJSON` lines 104-151, `MarshalJSON` lines 72-101). -/

/-- A decoded JSON value, the result of unmarshalling into Go `any`. -/
inductive JsonValue where
  | str (s : String)
  | num (n : Int)
  | bool (b : Bool)
  | null
  | arr (elems : List JsonValue)
  | obj (fields : List (String × JsonValue))

/-- The `switch v := aux.Action.(type)` normalisation of `UnmarshalJSON`
(identical code handles `NotAction`): a JSON string becomes a one-element
list; a JSON array keeps exactly its string elements (non-string elements
are skipped); any other shape, or an absent field, leaves the field unset.
No case of the switch returns an error. -/
def unmarshalActionField (v : Option JsonValue) : Option (List String) :=
  match v with
  | some (.str s) => some [s]
  | some (.arr elems) =>
    some (elems.filterMap fun e =>
      match e with
      | .str s => some s
      | _ => none)
  | _ => none

/-- A decode-error channel for the Action/NotAction part of `UnmarshalJSON`.
The Go switch at lines 120-148 has no failing branch, so this always
succeeds; the channel exists to state claims about decode errors. -/
def unmarshalActionFieldE (v : Option JsonValue) :
    Except String (Option (List String)) :=
  Except.ok (unmarshalActionField v)

/-- Decoding the `Action` member of a JSON object through the codec, as in
unmarshalling `{"Action": ...}`. -/
def decodeActionOfObject (fields : List (String × JsonValue)) :
    Option (List String) :=
  unmarshalActionField ((fields.find? (fun kv => kv.1 = "Action")).map
    (fun kv => kv.2))

/-- The `MarshalJSON` encoding of an Action/NotAction list (lines 84-98): a
one-element list is emitted as the bare string, any other non-nil list as a
JSON array. -/
def marshalActionField : Option (List String) → Option JsonValue
  | none => none
  | some [x] => some (.str x)
  | some l => some (.arr (l.map .str))

/-- Shapes the codec normalises: a string or an array. -/
def isStrOrArr : JsonValue → Bool
  | .str _ => true
  | .arr _ => true
  | _ => false

/-! ## Flat permission validators -/

/-- Errors of the Azure Crossplane role check body. -/
inductive AzureRoleError where
  | duplicatePermission
  | roleMissingPermissions (missing : List String)
deriving DecidableEq, Repr

/-- First permission name that repeats an earlier one, scanning left to
right with the accumulated `foundPermissions` set (azurecrossplanerolechecker
lines 221-233). -/
def firstDuplicate : List String → List String → Option String
  | _, [] => none
  | seen, x :: rest =>
    if x ∈ seen then some x else firstDuplicate (x :: seen) rest

/-- The actions observed across the role definition's permission blocks;
blocks with a nil `Actions` list are skipped (`continue`). -/
def azureObservedActions (perms : List (Option (List String))) : List String :=
  (perms.filterMap id).flatten

/-- The permission-validation body of `AzureCrossplaneRoleChecker.Handle`
(azurecrossplanerolechecker lines 217-247): accumulate observed actions,
returning the duplicate-permission error at the first repeated name; only
then compute the expected permissions missing from the observed set and fail
with them if any. -/
def azureCrossplaneRoleCheck (expected : List String)
    (perms : List (Option (List String))) : Except AzureRoleError Unit :=
  let observed := azureObservedActions perms
  match firstDuplicate [] observed with
  | some _ => Except.error AzureRoleError.duplicatePermission
  | none =>
    let missing := expected.filter (fun k => !(observed.contains k))
    if missing.isEmpty then Except.ok ()
    else Except.error (AzureRoleError.roleMissingPermissions missing)

/-- Errors of the GCP Crossplane role check after the pod has terminated.
There is no duplicate-permission constructor: the GCP checker has no
duplicate guard. -/
inductive GCPRoleError where
  | moreThanOneLogLine
  | podLogError (line : String)
  | roleMissingPermissions (missing : List String)
deriving DecidableEq, Repr

/-- The missing-permission loop of `GCPCrossplaneRoleChecker.Handle`
(gcpcrossplanerolechecker lines 250-266): every expected permission with no
equal member of the observed list. -/
def gcpMissingPermissions (expected observed : List String) : List String :=
  expected.filter (fun e => !(observed.contains e))

/-- The GCP role check applied to the single log line (lines 248-270):
split on `;`, compute missing permissions, fail if any. -/
def gcpRoleCheckFromLine (expected : List String) (logLine : String) :
    Except GCPRoleError Unit :=
  let missing := gcpMissingPermissions expected (splitSemicolon logLine)
  if missing.isEmpty then Except.ok ()
  else Except.error (GCPRoleError.roleMissingPermissions missing)

deriving instance DecidableEq for Except

/-- Result of one terminating run of the part of
`GCPCrossplaneRoleChecker.Handle` after the pod wait: the returned value and
whether the checker pod was deleted before returning. -/
structure GCPHandleResult where
  result : Except GCPRoleError Unit
  podDeleted : Bool
deriving DecidableEq, Repr

/-- The pod phase returned by `kubeutil.WaitForPodToSucceedOrFail` on
success: it loops until the phase is `Succeeded` or `Failed`. -/
inductive PodPhase where
  | succeeded
  | failed
deriving DecidableEq, Repr

/-- `GCPCrossplaneRoleChecker.Handle` from after the pod wait and log fetch
(gcpcrossplanerolechecker lines 238-278), given the terminal pod phase and
the non-blank log lines returned by `kubeutil.PodLogs`.  `none` is the Go
panic: `logLine := logs[0]` indexes the slice after a guard that only
rejects more than one line, so an empty slice is an index-out-of-range
panic.  The pod deletion at lines 272-276 runs only after the
missing-permission check has passed. -/
def gcpHandleAfterWait (expected : List String) (phase : PodPhase)
    (logs : List String) : Option GCPHandleResult :=
  if logs.length > 1 then
    some ⟨Except.error GCPRoleError.moreThanOneLogLine, false⟩
  else
    match logs with
    | [] => none
    | logLine :: _ =>
      if phase = PodPhase.failed then
        some ⟨Except.error (GCPRoleError.podLogError logLine), false⟩
      else
        match gcpRoleCheckFromLine expected logLine with
        | Except.ok _ => some ⟨Except.ok (), true⟩
        | Except.error e => some ⟨Except.error e, false⟩

/-! ## Enclosing cloud checkers (error propagation)
(`azurechecker.go` lines 93-102, `gcpchecker.go` lines 81-89). -/

/-- The error returned by `AzureChecker.Handle` when the inner Crossplane
role check fails: `multierr.Combine(ErrFailedToCheckCrossplaneRole, err)`,
which keeps the underlying cause. -/
inductive AzureOuterError (α : Type) where
  | combinedFailedToCheck (cause : α)

/-- The error returned by `GCPChecker.Handle` when the inner Crossplane role
check fails: the bare sentinel `crossplanerolechecker.ErrFailedToCheckCrossplaneRole`. -/
inductive GCPOuterError where
  | failedToCheckCrossplaneRole
deriving DecidableEq, Repr

/-- `AzureChecker.Handle`'s propagation of the inner Crossplane role check
result (azurechecker.go lines 93-102). -/
def azureCheckerWrap {α : Type} (inner : Except α Unit) :
    Except (AzureOuterError α) Unit :=
  match inner with
  | Except.ok _ => Except.ok ()
  | Except.error e => Except.error (AzureOuterError.combinedFailedToCheck e)

/-- `GCPChecker.Handle`'s propagation of the inner Crossplane role check
result (gcpchecker.go lines 81-89): any inner error is replaced by the
sentinel. -/
def gcpCheckerWrap {α : Type} (inner : Except α Unit) :
    Except GCPOuterError Unit :=
  match inner with
  | Except.ok _ => Except.ok ()
  | Except.error _ => Except.error GCPOuterError.failedToCheckCrossplaneRole

/-! ## Superset construction and deficiency mutations
(test-property vocabulary for the validation theorems). -/

/-- Extra entries appended to one statement's four tolerated collections. -/
structure StatementExtras where
  extraActions : List String
  extraNotActions : List String
  extraStringEquals : List (String × String)
  extraStringLike : List (String × String)

/-- Append extras to the collections of a statement that are present;
every other field is untouched. -/
def appendExtrasStatement (ex : StatementExtras) (s : RolePolicyStatement) :
    RolePolicyStatement :=
  { s with
    action := s.action.map (fun l => l ++ ex.extraActions)
    notAction := s.notAction.map (fun l => l ++ ex.extraNotActions)
    condition := s.condition.map
      (fun c =>
        { stringEquals := c.stringEquals.map (fun m => m ++ ex.extraStringEquals)
          stringLike := c.stringLike.map (fun m => m ++ ex.extraStringLike) }) }

/-- Append per-position extras to every statement of a list, the position of
the first statement being `i`. -/
def appendExtrasStatements (exs : Nat → StatementExtras) :
    Nat → List RolePolicyStatement → List RolePolicyStatement
  | _, [] => []
  | i, s :: rest =>
    appendExtrasStatement (exs i) s :: appendExtrasStatements exs (i + 1) rest

/-- An actual document formed from a baseline by appending extra collection
entries to every statement. -/
def appendExtrasDocument (exs : Nat → StatementExtras)
    (d : RolePolicyDocument) : RolePolicyDocument :=
  { d with statement := appendExtrasStatements exs 0 d.statement }

/-- A Go map rendered as an association list has pairwise distinct keys. -/
def mapWellFormed (m : List (String × String)) : Prop :=
  (m.map Prod.fst).Nodup

instance (m : List (String × String)) : Decidable (mapWellFormed m) := by
  unfold mapWellFormed; infer_instance

/-- An absent map is well formed; a present one must have distinct keys. -/
def optMapWellFormed : Option (List (String × String)) → Prop
  | none => True
  | some m => mapWellFormed m

instance (o : Option (List (String × String))) :
    Decidable (optMapWellFormed o) := by
  unfold optMapWellFormed; cases o <;> infer_instance

/-- Both condition sub-maps of a statement are well formed. -/
def statementWellFormed (s : RolePolicyStatement) : Prop :=
  match s.condition with
  | none => True
  | some c => optMapWellFormed c.stringEquals ∧ optMapWellFormed c.stringLike

instance (s : RolePolicyStatement) : Decidable (statementWellFormed s) := by
  unfold statementWellFormed
  cases s.condition <;> infer_instance

/-- A mutation that removes or alters one required entry or scalar field of a
statement, as enumerated by the specification: an `Action` entry, a
`Condition.StringEquals`/`Condition.StringLike` entry, or the scalar
`Effect`, `Resource` or `Principal.Federated`. -/
inductive Deficiency where
  | removeAction (x : String)
  | alterAction (x y : String)
  | removeStringEquals (k : String)
  | alterStringEquals (k v : String)
  | removeStringLike (k : String)
  | alterStringLike (k v : String)
  | alterEffect (v : String)
  | removeEffect
  | alterResource (v : String)
  | removeResource
  | alterFederated (v : String)
  | removeFederated

/-- Replace the value bound to key `k` by `v`, keeping all other entries. -/
def alterMapValue (k v : String) (m : List (String × String)) :
    List (String × String) :=
  m.map (fun kv => if kv.1 = k then (kv.1, v) else kv)

/-- Apply a map mutation inside the `StringEquals` sub-map. -/
def mutateStringEquals (f : List (String × String) → List (String × String))
    (s : RolePolicyStatement) : RolePolicyStatement :=
  { s with
    condition := s.condition.map
      (fun c => { c with stringEquals := c.stringEquals.map f }) }

/-- Apply a map mutation inside the `StringLike` sub-map. -/
def mutateStringLike (f : List (String × String) → List (String × String))
    (s : RolePolicyStatement) : RolePolicyStatement :=
  { s with
    condition := s.condition.map
      (fun c => { c with stringLike := c.stringLike.map f }) }

/-- Apply a deficiency mutation to a statement.  Every case leaves the SID
untouched. -/
def applyDeficiency : Deficiency → RolePolicyStatement → RolePolicyStatement
  | .removeAction x, s =>
    { s with action := s.action.map (fun l => l.filter (fun a => a ≠ x)) }
  | .alterAction x y, s =>
    { s with action := s.action.map (fun l => l.map (fun a => if a = x then y else a)) }
  | .removeStringEquals k, s =>
    mutateStringEquals (fun m => m.filter (fun kv => kv.1 ≠ k)) s
  | .alterStringEquals k v, s => mutateStringEquals (alterMapValue k v) s
  | .removeStringLike k, s =>
    mutateStringLike (fun m => m.filter (fun kv => kv.1 ≠ k)) s
  | .alterStringLike k v, s => mutateStringLike (alterMapValue k v) s
  | .alterEffect v, s => { s with effect := s.effect.map (fun _ => v) }
  | .removeEffect, s => { s with effect := none }
  | .alterResource v, s => { s with resource := s.resource.map (fun _ => v) }
  | .removeResource, s => { s with resource := none }
  | .alterFederated v, s =>
    { s with
      principal := s.principal.map
        (fun p => { federated := p.federated.map (fun _ => v) }) }
  | .removeFederated, s =>
    { s with principal := s.principal.map (fun _ => { federated := none }) }

/-- A deficiency is genuine for a statement when the target it removes or
alters is actually present (and the altered value actually differs). -/
def genuineDeficiency : Deficiency → RolePolicyStatement → Prop
  | .removeAction x, s => ∃ l, s.action = some l ∧ x ∈ l
  | .alterAction x y, s => (∃ l, s.action = some l ∧ x ∈ l) ∧ x ≠ y
  | .removeStringEquals k, s =>
    ∃ c m, s.condition = some c ∧ c.stringEquals = some m
      ∧ (lookupValue m k).isSome
  | .alterStringEquals k v, s =>
    ∃ c m w, s.condition = some c ∧ c.stringEquals = some m
      ∧ lookupValue m k = some w ∧ w ≠ v
  | .removeStringLike k, s =>
    ∃ c m, s.condition = some c ∧ c.stringLike = some m
      ∧ (lookupValue m k).isSome
  | .alterStringLike k v, s =>
    ∃ c m w, s.condition = some c ∧ c.stringLike = some m
      ∧ lookupValue m k = some w ∧ w ≠ v
  | .alterEffect v, s => ∃ w, s.effect = some w ∧ w ≠ v
  | .removeEffect, s => (s.effect).isSome
  | .alterResource v, s => ∃ w, s.resource = some w ∧ w ≠ v
  | .removeResource, s => (s.resource).isSome
  | .alterFederated v, s =>
    ∃ p w, s.principal = some p ∧ p.federated = some w ∧ w ≠ v
  | .removeFederated, s =>
    ∃ p, s.principal = some p ∧ (p.federated).isSome

/-- The document with the statement at position `t` replaced by its mutation
under a deficiency (the actual document of the deficit scenarios). -/
def mutateDocumentAt (t : Nat) (d : Deficiency) (doc : RolePolicyDocument) :
    RolePolicyDocument :=
  { doc with
    statement :=
      match doc.statement.get? t with
      | some st => doc.statement.set t (applyDeficiency d st)
      | none => doc.statement }

/-- A concrete configuration used to instantiate the theorems. -/
def exampleEnv : EnvContext :=
  { clusterName := "mycluster"
    accountID := "1234567890"
    oidcURL := "oidc.example.com/id/abc" }

/-- The single statement of the `"boundary"` expected policy document. -/
def boundaryStatement : RolePolicyStatement :=
  { condition := none
    effect := some "Allow"
    action := none
    notAction :=
      some ["support:*", "organizations:*", "iam:Upload*", "iam:Update*",
            "iam:Untag*", "iam:Tag*", "iam:Set*", "iam:Resync*",
            "iam:Reset*", "iam:Remove*", "iam:Put*", "iam:PassRole",
            "iam:ListVirtualMFA*", "iam:ListMFA*",
            "iam:GetOrganizationsAccessReport",
            "iam:GetAccountAuthorizationDetails", "iam:Generate*",
            "iam:Enable*", "iam:Detach*", "iam:Delete*",
            "iam:Deactivate*", "iam:Create*", "iam:Change*",
            "iam:Attach*", "iam:Add*", "cloudtrail:DeleteTrail"]
    principal := none
    resource := some "*"
    sid := some "AllowAllActionsApartFromListed" }

/-- The `"boundary"` entry of `constExpectedPolicyDocuments`
(awscrossplanerolechecker.go lines 193-230). -/
def constExpectedPolicyDocumentBoundary : RolePolicyDocument :=
  { version := some "2012-10-17"
    statement := [boundaryStatement] }

/-- Extras used by the witness instantiations. -/
def exampleExtras : Nat → StatementExtras :=
  fun _ =>
    { extraActions := ["ec2:DescribeInstances"]
      extraNotActions := ["s3:DeleteBucket"]
      extraStringEquals := [("aws:RequestTag/team", "core")]
      extraStringLike := [("extra:sub", "system:serviceaccount:*")] }

/-! # Theorems -/

/-! ## Helper lemmas for the validation theorems -/

theorem appendExtrasStatement_sid (ex : StatementExtras)
    (s : RolePolicyStatement) : (appendExtrasStatement ex s).sid = s.sid := rfl

theorem applyDeficiency_sid (d : Deficiency) (s : RolePolicyStatement) :
    (applyDeficiency d s).sid = s.sid := by
  cases d <;> rfl

theorem resolveStatement_sid (c : EnvContext) (s : RolePolicyStatement) :
    (resolveStatement c s).sid = s.sid := rfl

theorem diffOptScalar_self (p : List String) (x : Option String) :
    diffOptScalar p x x = [] := by
  cases x <;> simp [diffOptScalar]

theorem diffPrincipal_self (p : List String) (x : Option RolePolicyPrincipal) :
    diffPrincipal p x x = [] := by
  cases x with
  | none => rfl
  | some pr => simp [diffPrincipal, diffOptScalar_self]

theorem filterChangelog_append (a b : List Change) :
    filterChangelog (a ++ b) = filterChangelog a ++ filterChangelog b :=
  List.filter_append _ _

theorem filterChangelog_eq_nil {cl : List Change}
    (h : ∀ c ∈ cl, isSupersetCreate c = true) : filterChangelog cl = [] := by
  unfold filterChangelog
  rw [List.filter_eq_nil_iff]
  intro c hc
  simp [h c hc]

theorem mem_filterChangelog {cl : List Change} {c : Change}
    (hc : c ∈ cl) (hs : isSupersetCreate c = false) :
    c ∈ filterChangelog cl := by
  unfold filterChangelog
  rw [List.mem_filter]
  exact ⟨hc, by simp [hs]⟩

theorem lookupValue_append_of_mem {m : List (String × String)}
    (ext : List (String × String)) (hwf : mapWellFormed m)
    {kv : String × String} (hm : kv ∈ m) :
    lookupValue (m ++ ext) kv.1 = some kv.2 := by
  induction m with
  | nil => cases hm
  | cons hd tl ih =>
    unfold mapWellFormed at hwf
    rw [List.map_cons, List.nodup_cons] at hwf
    rcases List.mem_cons.mp hm with h | h
    · subst h
      unfold lookupValue
      rw [List.cons_append, List.find?_cons_of_pos _ (by simp)]
      rfl
    · have hk : ¬ (hd.1 = kv.1) := by
        intro hEq
        exact hwf.1 (hEq ▸ List.mem_map_of_mem Prod.fst h)
      unfold lookupValue
      rw [List.cons_append, List.find?_cons_of_neg _ (by simp [hk])]
      exact ih hwf.2 h

theorem diffStringMap_append_extras {p : List String}
    {m ext : List (String × String)} (hwf : mapWellFormed m) :
    ∀ c ∈ diffStringMap p m (m ++ ext),
      ∃ k v, c = ⟨ChangeType.CREATE, p ++ [k], none, some v⟩ := by
  intro c hc
  unfold diffStringMap at hc
  rcases List.mem_append.mp hc with h | h
  · rcases List.mem_filterMap.mp h with ⟨kv, _, hf⟩
    by_cases hl : (lookupValue m kv.1).isNone
    · rw [if_pos hl] at hf
      exact ⟨kv.1, kv.2, (Option.some_inj.mp hf).symm⟩
    · rw [if_neg hl] at hf
      cases hf
  · rcases List.mem_filterMap.mp h with ⟨kv, hkv, hf⟩
    rw [lookupValue_append_of_mem ext hwf hkv] at hf
    simp at hf

theorem diffStringList_append_extras {p : List String} {l ext : List String} :
    ∀ c ∈ diffStringList p l (l ++ ext),
      ∃ i v, c = ⟨ChangeType.CREATE, p ++ [i], none, some v⟩ := by
  intro c hc
  unfold diffStringList at hc
  rcases List.mem_append.mp hc with h | h
  · rcases List.mem_filterMap.mp h with ⟨ix, _, hf⟩
    by_cases hm : ix.2 ∈ l
    · rw [if_pos hm] at hf
      cases hf
    · rw [if_neg hm] at hf
      exact ⟨toString ix.1, ix.2, (Option.some_inj.mp hf).symm⟩
  · rcases List.mem_filterMap.mp h with ⟨ix, hix, hf⟩
    have hmem : ix.2 ∈ l := by
      have := List.mem_enum_iff_getElem?.mp hix
      exact List.getElem?_mem this
    rw [if_pos (List.mem_append_left ext hmem)] at hf
    cases hf

theorem diffOptStringList_append_extras {p : List String}
    {o : Option (List String)} {ext : List String} :
    ∀ c ∈ diffOptStringList p o (o.map (fun l => l ++ ext)),
      ∃ i v, c = ⟨ChangeType.CREATE, p ++ [i], none, some v⟩ := by
  cases o with
  | none => intro c hc; cases hc
  | some l => exact diffStringList_append_extras

theorem diffOptStringMap_append_extras {p : List String}
    {o : Option (List (String × String))} {ext : List (String × String)}
    (hwf : optMapWellFormed o) :
    ∀ c ∈ diffOptStringMap p o (o.map (fun m => m ++ ext)),
      ∃ k v, c = ⟨ChangeType.CREATE, p ++ [k], none, some v⟩ := by
  cases o with
  | none => intro c hc; cases hc
  | some m => exact diffStringMap_append_extras hwf

theorem diffStatement_append_extras_superset (key : String)
    (s : RolePolicyStatement) (ex : StatementExtras)
    (hwf : statementWellFormed s) :
    ∀ c ∈ diffStatement ["Statement", key] s (appendExtrasStatement ex s),
      isSupersetCreate c = true := by
  intro c hc
  unfold diffStatement at hc
  simp only [List.mem_append] at hc
  rcases hc with ((((((hc | hc) | hc) | hc) | hc) | hc) | hc)
  · -- Condition component
    have hcond :
        (appendExtrasStatement ex s).condition
          = s.condition.map (fun c0 =>
              { stringEquals := c0.stringEquals.map (fun m => m ++ ex.extraStringEquals)
                stringLike := c0.stringLike.map (fun m => m ++ ex.extraStringLike) }) := rfl
    rw [hcond] at hc
    cases hs : s.condition with
    | none => rw [hs] at hc; cases hc
    | some c0 =>
      rw [hs] at hc
      unfold statementWellFormed at hwf
      rw [hs] at hwf
      simp only [Option.map_some'] at hc
      unfold diffCondition at hc
      rcases List.mem_append.mp hc with h | h
      · rcases diffOptStringMap_append_extras hwf.1 c h with ⟨k, v, rfl⟩
        rfl
      · rcases diffOptStringMap_append_extras hwf.2 c h with ⟨k, v, rfl⟩
        rfl
  · -- Effect component
    have he : (appendExtrasStatement ex s).effect = s.effect := rfl
    rw [he, diffOptScalar_self] at hc
    cases hc
  · -- Action component
    have ha :
        (appendExtrasStatement ex s).action
          = s.action.map (fun l => l ++ ex.extraActions) := rfl
    rw [ha] at hc
    rcases diffOptStringList_append_extras c hc with ⟨i, v, rfl⟩
    rfl
  · -- NotAction component
    have hn :
        (appendExtrasStatement ex s).notAction
          = s.notAction.map (fun l => l ++ ex.extraNotActions) := rfl
    rw [hn] at hc
    rcases diffOptStringList_append_extras c hc with ⟨i, v, rfl⟩
    rfl
  · -- Principal component
    have hp : (appendExtrasStatement ex s).principal = s.principal := rfl
    rw [hp, diffPrincipal_self] at hc
    cases hc
  · -- Resource component
    have hr : (appendExtrasStatement ex s).resource = s.resource := rfl
    rw [hr, diffOptScalar_self] at hc
    cases hc
  · -- Sid component
    have hsid : (appendExtrasStatement ex s).sid = s.sid := rfl
    rw [hsid, diffOptScalar_self] at hc
    cases hc

theorem find?_appendExtrasStatements {l : List RolePolicyStatement}
    (hnd : (l.map (fun s => s.sid)).Nodup) (exs : Nat → StatementExtras) :
    ∀ (i k : Nat) (es : RolePolicyStatement), l.get? i = some es →
      (appendExtrasStatements exs k l).find? (fun as => as.sid = es.sid)
        = some (appendExtrasStatement (exs (k + i)) es) := by
  induction l with
  | nil => intro i k es h; cases h
  | cons s rest ih =>
    rw [List.map_cons, List.nodup_cons] at hnd
    intro i k es h
    match i with
    | 0 =>
      rw [List.get?_cons_zero, Option.some_inj] at h
      subst h
      unfold appendExtrasStatements
      rw [List.find?_cons_of_pos _ (by simp [appendExtrasStatement_sid])]
      rw [Nat.add_zero]
    | n + 1 =>
      rw [List.get?_cons_succ] at h
      have hmem : es.sid ∈ rest.map (fun s' => s'.sid) :=
        List.mem_map_of_mem _ (List.get?_mem h)
      have hne : ¬ ((appendExtrasStatement (exs k) s).sid = es.sid) := by
        rw [appendExtrasStatement_sid]
        intro hEq
        exact hnd.1 (hEq ▸ hmem)
      unfold appendExtrasStatements
      rw [List.find?_cons_of_neg _ (by simp [hne])]
      have := ih hnd.2 n (k + 1) es h
      rw [this]
      have harith : k + 1 + n = k + (n + 1) := by omega
      rw [harith]

theorem filterChangelog_diffStatements_append
    {lfull : List RolePolicyStatement} (exs : Nat → StatementExtras)
    (hnd : (lfull.map (fun s => s.sid)).Nodup)
    (hwf : ∀ s ∈ lfull, statementWellFormed s) :
    ∀ (l : List RolePolicyStatement) (j : Nat),
      (∀ n, l.get? n = lfull.get? (j + n)) →
      filterChangelog
          (diffStatements (appendExtrasStatements exs 0 lfull) j l) = [] := by
  intro l
  induction l with
  | nil => intro j h; rfl
  | cons es rest ih =>
    intro j h
    have hj : lfull.get? j = some es := by
      have := h 0
      rw [List.get?_cons_zero] at this
      simpa using this.symm
    have hfind := find?_appendExtrasStatements hnd exs j 0 es hj
    unfold diffStatements
    rw [filterChangelog_append, hfind]
    have hzero : (0 : Nat) + j = j := by omega
    rw [hzero]
    have hcomp :
        filterChangelog
          (diffStatement ["Statement", statementKey j es] es
            (appendExtrasStatement (exs j) es)) = [] :=
      filterChangelog_eq_nil
        (diffStatement_append_extras_superset (statementKey j es) es (exs j)
          (hwf es (List.get?_mem hj)))
    rw [hcomp]
    have hrest := ih (j + 1) (fun n => by
      have := h (n + 1)
      rw [List.get?_cons_succ] at this
      rw [this]
      have : j + (n + 1) = j + 1 + n := by omega
      rw [this])
    rw [hrest]
    rfl

theorem lookupValue_eq_some_elim {m : List (String × String)} {k w : String}
    (h : lookupValue m k = some w) :
    ∃ kv, kv ∈ m ∧ kv.1 = k ∧ kv.2 = w := by
  unfold lookupValue at h
  cases hf : m.find? (fun kv => kv.1 = k) with
  | none => rw [hf] at h; cases h
  | some kv =>
    rw [hf] at h
    refine ⟨kv, List.mem_of_find?_eq_some hf, ?_, ?_⟩
    · have := List.find?_some hf
      simpa using this
    · simpa using h

theorem lookupValue_filter_ne (m : List (String × String)) (k : String) :
    lookupValue (m.filter (fun kv => kv.1 ≠ k)) k = none := by
  unfold lookupValue
  rw [List.find?_eq_none.mpr]
  · rfl
  · intro kv hkv
    have := (List.mem_filter.mp hkv).2
    simp only [decide_eq_true_eq] at this ⊢
    exact this

theorem lookupValue_alterMapValue (m : List (String × String)) (k v : String)
    (h : ∃ w, lookupValue m k = some w) :
    lookupValue (alterMapValue k v m) k = some v := by
  induction m with
  | nil =>
    rcases h with ⟨w, hw⟩
    cases hw
  | cons hd tl ih =>
    by_cases hk : hd.1 = k
    · unfold alterMapValue lookupValue
      rw [List.map_cons, if_pos hk, List.find?_cons_of_pos _ (by simp [hk])]
      rfl
    · unfold alterMapValue lookupValue
      rw [List.map_cons, if_neg hk, List.find?_cons_of_neg _ (by simp [hk])]
      rcases h with ⟨w, hw⟩
      unfold lookupValue at hw
      rw [List.find?_cons_of_neg _ (by simp [hk])] at hw
      exact ih ⟨w, hw⟩

theorem delete_mem_diffStringList {p : List String} {l a : List String}
    {x : String} {i : Nat} (hi : l[i]? = some x) (hx : x ∉ a) :
    (⟨ChangeType.DELETE, p ++ [toString i], some x, none⟩ : Change)
      ∈ diffStringList p l a := by
  unfold diffStringList
  refine List.mem_append_right _ ?_
  rw [List.mem_filterMap]
  exact ⟨(i, x), List.mem_enum_iff_getElem?.mpr hi, by rw [if_neg hx]⟩

theorem delete_mem_diffStringMap {p : List String}
    {m a : List (String × String)} {kv : String × String}
    (hkv : kv ∈ m) (hl : lookupValue a kv.1 = none) :
    (⟨ChangeType.DELETE, p ++ [kv.1], some kv.2, none⟩ : Change)
      ∈ diffStringMap p m a := by
  unfold diffStringMap
  refine List.mem_append_right _ ?_
  rw [List.mem_filterMap]
  refine ⟨kv, hkv, ?_⟩
  rw [hl]

theorem update_mem_diffStringMap {p : List String}
    {m a : List (String × String)} {kv : String × String} {v : String}
    (hkv : kv ∈ m) (hl : lookupValue a kv.1 = some v) (hne : ¬ (v = kv.2)) :
    (⟨ChangeType.UPDATE, p ++ [kv.1], some kv.2, some v⟩ : Change)
      ∈ diffStringMap p m a := by
  unfold diffStringMap
  refine List.mem_append_right _ ?_
  rw [List.mem_filterMap]
  refine ⟨kv, hkv, ?_⟩
  rw [hl]
  simp [hne]

theorem mem_diffStatement_condition {pfx : List String}
    {e a : RolePolicyStatement} {c : Change}
    (h : c ∈ diffCondition (pfx ++ ["Condition"]) e.condition a.condition) :
    c ∈ diffStatement pfx e a := by
  unfold diffStatement
  exact List.mem_append_left _ (List.mem_append_left _ (List.mem_append_left _
    (List.mem_append_left _ (List.mem_append_left _ (List.mem_append_left _ h)))))

theorem mem_diffStatement_effect {pfx : List String}
    {e a : RolePolicyStatement} {c : Change}
    (h : c ∈ diffOptScalar (pfx ++ ["Effect"]) e.effect a.effect) :
    c ∈ diffStatement pfx e a := by
  unfold diffStatement
  exact List.mem_append_left _ (List.mem_append_left _ (List.mem_append_left _
    (List.mem_append_left _ (List.mem_append_left _ (List.mem_append_right _ h)))))

theorem mem_diffStatement_action {pfx : List String}
    {e a : RolePolicyStatement} {c : Change}
    (h : c ∈ diffOptStringList (pfx ++ ["Action"]) e.action a.action) :
    c ∈ diffStatement pfx e a := by
  unfold diffStatement
  exact List.mem_append_left _ (List.mem_append_left _ (List.mem_append_left _
    (List.mem_append_left _ (List.mem_append_right _ h))))

theorem mem_diffStatement_principal {pfx : List String}
    {e a : RolePolicyStatement} {c : Change}
    (h : c ∈ diffPrincipal (pfx ++ ["Principal"]) e.principal a.principal) :
    c ∈ diffStatement pfx e a := by
  unfold diffStatement
  exact List.mem_append_left _ (List.mem_append_left _ (List.mem_append_right _ h))

theorem mem_diffStatement_resource {pfx : List String}
    {e a : RolePolicyStatement} {c : Change}
    (h : c ∈ diffOptScalar (pfx ++ ["Resource"]) e.resource a.resource) :
    c ∈ diffStatement pfx e a := by
  unfold diffStatement
  exact List.mem_append_left _ (List.mem_append_right _ h)

theorem diffStatement_deficiency_detected (key : String)
    (s : RolePolicyStatement) (d : Deficiency) (hg : genuineDeficiency d s) :
    ∃ c, c ∈ diffStatement ["Statement", key] s (applyDeficiency d s)
      ∧ isSupersetCreate c = false
      ∧ ∃ rest, rest ≠ [] ∧ c.path = ["Statement", key] ++ rest := by
  cases d with
  | removeAction x =>
    rcases hg with ⟨l, hal, hx⟩
    rcases List.getElem?_of_mem hx with ⟨i, hi⟩
    refine ⟨⟨ChangeType.DELETE, ["Statement", key, "Action", toString i],
      some x, none⟩, ?_, rfl, ["Action", toString i], by simp, rfl⟩
    apply mem_diffStatement_action
    have ha : (applyDeficiency (Deficiency.removeAction x) s).action
        = some (l.filter (fun a => a ≠ x)) := by
      simp [applyDeficiency, hal]
    rw [hal, ha]
    exact delete_mem_diffStringList hi (by simp)
  | alterAction x y =>
    rcases hg with ⟨⟨l, hal, hx⟩, hxy⟩
    rcases List.getElem?_of_mem hx with ⟨i, hi⟩
    refine ⟨⟨ChangeType.DELETE, ["Statement", key, "Action", toString i],
      some x, none⟩, ?_, rfl, ["Action", toString i], by simp, rfl⟩
    apply mem_diffStatement_action
    have ha : (applyDeficiency (Deficiency.alterAction x y) s).action
        = some (l.map (fun a => if a = x then y else a)) := by
      simp [applyDeficiency, hal]
    rw [hal, ha]
    refine delete_mem_diffStringList hi ?_
    rw [List.mem_map]
    rintro ⟨a, _, hEq⟩
    by_cases hax : a = x
    · rw [if_pos hax] at hEq
      exact hxy hEq.symm
    · rw [if_neg hax] at hEq
      exact hax hEq
  | removeStringEquals k =>
    rcases hg with ⟨c0, m, hcond, hse, hlk⟩
    rcases Option.isSome_iff_exists.mp hlk with ⟨w, hw⟩
    rcases lookupValue_eq_some_elim hw with ⟨kv, hkvm, hk1, _⟩
    refine ⟨⟨ChangeType.DELETE,
      ["Statement", key, "Condition", "StringEquals", kv.1], some kv.2, none⟩,
      ?_, rfl, ["Condition", "StringEquals", kv.1], by simp, rfl⟩
    apply mem_diffStatement_condition
    have ha : (applyDeficiency (Deficiency.removeStringEquals k) s).condition
        = some { c0 with
            stringEquals :=
              c0.stringEquals.map (fun mm => mm.filter (fun kv => kv.1 ≠ k)) } := by
      simp [applyDeficiency, mutateStringEquals, hcond]
    rw [hcond, ha]
    refine List.mem_append_left _ ?_
    rw [hse]
    refine delete_mem_diffStringMap hkvm ?_
    rw [hk1]
    exact lookupValue_filter_ne m k
  | alterStringEquals k v =>
    rcases hg with ⟨c0, m, w, hcond, hse, hw, hwv⟩
    rcases lookupValue_eq_some_elim hw with ⟨kv, hkvm, hk1, hk2⟩
    refine ⟨⟨ChangeType.UPDATE,
      ["Statement", key, "Condition", "StringEquals", kv.1], some kv.2, some v⟩,
      ?_, rfl, ["Condition", "StringEquals", kv.1], by simp, rfl⟩
    apply mem_diffStatement_condition
    have ha : (applyDeficiency (Deficiency.alterStringEquals k v) s).condition
        = some { c0 with
            stringEquals := c0.stringEquals.map (alterMapValue k v) } := by
      simp [applyDeficiency, mutateStringEquals, hcond]
    rw [hcond, ha]
    refine List.mem_append_left _ ?_
    rw [hse]
    refine update_mem_diffStringMap hkvm ?_ ?_
    · rw [hk1]
      exact lookupValue_alterMapValue m k v ⟨w, hw⟩
    · rw [hk2]
      intro hEq
      exact hwv hEq.symm
  | removeStringLike k =>
    rcases hg with ⟨c0, m, hcond, hse, hlk⟩
    rcases Option.isSome_iff_exists.mp hlk with ⟨w, hw⟩
    rcases lookupValue_eq_some_elim hw with ⟨kv, hkvm, hk1, _⟩
    refine ⟨⟨ChangeType.DELETE,
      ["Statement", key, "Condition", "StringLike", kv.1], some kv.2, none⟩,
      ?_, rfl, ["Condition", "StringLike", kv.1], by simp, rfl⟩
    apply mem_diffStatement_condition
    have ha : (applyDeficiency (Deficiency.removeStringLike k) s).condition
        = some { c0 with
            stringLike :=
              c0.stringLike.map (fun mm => mm.filter (fun kv => kv.1 ≠ k)) } := by
      simp [applyDeficiency, mutateStringLike, hcond]
    rw [hcond, ha]
    refine List.mem_append_right _ ?_
    rw [hse]
    refine delete_mem_diffStringMap hkvm ?_
    rw [hk1]
    exact lookupValue_filter_ne m k
  | alterStringLike k v =>
    rcases hg with ⟨c0, m, w, hcond, hse, hw, hwv⟩
    rcases lookupValue_eq_some_elim hw with ⟨kv, hkvm, hk1, hk2⟩
    refine ⟨⟨ChangeType.UPDATE,
      ["Statement", key, "Condition", "StringLike", kv.1], some kv.2, some v⟩,
      ?_, rfl, ["Condition", "StringLike", kv.1], by simp, rfl⟩
    apply mem_diffStatement_condition
    have ha : (applyDeficiency (Deficiency.alterStringLike k v) s).condition
        = some { c0 with
            stringLike := c0.stringLike.map (alterMapValue k v) } := by
      simp [applyDeficiency, mutateStringLike, hcond]
    rw [hcond, ha]
    refine List.mem_append_right _ ?_
    rw [hse]
    refine update_mem_diffStringMap hkvm ?_ ?_
    · rw [hk1]
      exact lookupValue_alterMapValue m k v ⟨w, hw⟩
    · rw [hk2]
      intro hEq
      exact hwv hEq.symm
  | alterEffect v =>
    rcases hg with ⟨w, he, hwv⟩
    refine ⟨⟨ChangeType.UPDATE, ["Statement", key, "Effect"], some w, some v⟩,
      ?_, rfl, ["Effect"], by simp, rfl⟩
    apply mem_diffStatement_effect
    have ha : (applyDeficiency (Deficiency.alterEffect v) s).effect = some v := by
      simp [applyDeficiency, he]
    rw [he, ha]
    simp [diffOptScalar, hwv]
  | removeEffect =>
    rcases Option.isSome_iff_exists.mp hg with ⟨w, he⟩
    refine ⟨⟨ChangeType.DELETE, ["Statement", key, "Effect"], some w, none⟩,
      ?_, rfl, ["Effect"], by simp, rfl⟩
    apply mem_diffStatement_effect
    have ha : (applyDeficiency Deficiency.removeEffect s).effect = none := rfl
    rw [he, ha]
    simp [diffOptScalar]
  | alterResource v =>
    rcases hg with ⟨w, he, hwv⟩
    refine ⟨⟨ChangeType.UPDATE, ["Statement", key, "Resource"], some w, some v⟩,
      ?_, rfl, ["Resource"], by simp, rfl⟩
    apply mem_diffStatement_resource
    have ha : (applyDeficiency (Deficiency.alterResource v) s).resource = some v := by
      simp [applyDeficiency, he]
    rw [he, ha]
    simp [diffOptScalar, hwv]
  | removeResource =>
    rcases Option.isSome_iff_exists.mp hg with ⟨w, he⟩
    refine ⟨⟨ChangeType.DELETE, ["Statement", key, "Resource"], some w, none⟩,
      ?_, rfl, ["Resource"], by simp, rfl⟩
    apply mem_diffStatement_resource
    have ha : (applyDeficiency Deficiency.removeResource s).resource = none := rfl
    rw [he, ha]
    simp [diffOptScalar]
  | alterFederated v =>
    rcases hg with ⟨p0, w, hp, hf, hwv⟩
    refine ⟨⟨ChangeType.UPDATE, ["Statement", key, "Principal", "Federated"],
      some w, some v⟩, ?_, rfl, ["Principal", "Federated"], by simp, rfl⟩
    apply mem_diffStatement_principal
    have ha : (applyDeficiency (Deficiency.alterFederated v) s).principal
        = some { federated := some v } := by
      simp [applyDeficiency, hp, hf]
    rw [hp, ha]
    show _ ∈ diffOptScalar (["Statement", key, "Principal"] ++ ["Federated"])
      p0.federated (some v)
    rw [hf]
    simp [diffOptScalar, hwv]
  | removeFederated =>
    rcases hg with ⟨p0, hp, hfsome⟩
    rcases Option.isSome_iff_exists.mp hfsome with ⟨w, hf⟩
    refine ⟨⟨ChangeType.DELETE, ["Statement", key, "Principal", "Federated"],
      some w, none⟩, ?_, rfl, ["Principal", "Federated"], by simp, rfl⟩
    apply mem_diffStatement_principal
    have ha : (applyDeficiency Deficiency.removeFederated s).principal
        = some { federated := none } := by
      simp [applyDeficiency, hp]
    rw [hp, ha]
    show _ ∈ diffOptScalar (["Statement", key, "Principal"] ++ ["Federated"])
      p0.federated none
    rw [hf]
    simp [diffOptScalar]

theorem find?_set_applyDeficiency {l : List RolePolicyStatement}
    (hnd : (l.map (fun s => s.sid)).Nodup) (d : Deficiency) :
    ∀ (t : Nat) (st : RolePolicyStatement), l.get? t = some st →
      (l.set t (applyDeficiency d st)).find? (fun as => as.sid = st.sid)
        = some (applyDeficiency d st) := by
  induction l with
  | nil => intro t st h; cases h
  | cons s rest ih =>
    rw [List.map_cons, List.nodup_cons] at hnd
    intro t st h
    match t with
    | 0 =>
      rw [List.get?_cons_zero, Option.some_inj] at h
      subst h
      rw [List.set_cons_zero]
      rw [List.find?_cons_of_pos _ (by simp [applyDeficiency_sid])]
    | n + 1 =>
      rw [List.get?_cons_succ] at h
      rw [List.set_cons_succ]
      have hmem : st.sid ∈ rest.map (fun s' => s'.sid) :=
        List.mem_map_of_mem _ (List.get?_mem h)
      rw [List.find?_cons_of_neg _ (by
        simp only [decide_eq_true_eq]
        intro hEq
        exact hnd.1 (hEq ▸ hmem))]
      exact ih hnd.2 n st h

theorem mem_diffStatements {actual : List RolePolicyStatement} {c : Change} :
    ∀ (l : List RolePolicyStatement) (j t : Nat) (es : RolePolicyStatement),
      l.get? t = some es →
      c ∈ (match actual.find? (fun as => as.sid = es.sid) with
           | none =>
             ([⟨ChangeType.DELETE, ["Statement", statementKey (j + t) es],
               none, none⟩] : List Change)
           | some as =>
             diffStatement ["Statement", statementKey (j + t) es] es as) →
      c ∈ diffStatements actual j l := by
  intro l
  induction l with
  | nil => intro j t es h hc; cases h
  | cons s rest ih =>
    intro j t es h hc
    match t with
    | 0 =>
      rw [List.get?_cons_zero, Option.some_inj] at h
      subst h
      unfold diffStatements
      refine List.mem_append_left _ ?_
      rw [Nat.add_zero] at hc
      exact hc
    | n + 1 =>
      rw [List.get?_cons_succ] at h
      unfold diffStatements
      refine List.mem_append_right _ ?_
      have harith : j + (n + 1) = (j + 1) + n := by omega
      rw [harith] at hc
      exact ih (j + 1) n es h hc

/-- C1: for every expected policy document whose placeholder-resolved form
has pairwise distinct statement SIDs and well-formed condition maps, and
every actual document formed from the resolved form by appending arbitrary
extra entries to each statement's `Action`, `NotAction`,
`Condition.StringEquals` and `Condition.StringLike` collections,
`validatePolicyDocument` returns an empty changelog: every raw changelog
entry such an actual document produces is a CREATE inside one of the four
tolerated collections, and the superset filter removes exactly those. -/
theorem awsValidationAcceptsSupersets (ctx : EnvContext)
    (E : RolePolicyDocument) (exs : Nat → StatementExtras)
    (hnd : ((resolveDocument ctx E).statement.map (fun s => s.sid)).Nodup)
    (hwf : ∀ s ∈ (resolveDocument ctx E).statement, statementWellFormed s) :
    validatePolicyDocument ctx
        (appendExtrasDocument exs (resolveDocument ctx E)) E = [] := by
  unfold validatePolicyDocument diffDocument
  rw [filterChangelog_append]
  have hv :
      (appendExtrasDocument exs (resolveDocument ctx E)).version
        = (resolveDocument ctx E).version := rfl
  rw [hv, diffOptScalar_self]
  have hs :
      (appendExtrasDocument exs (resolveDocument ctx E)).statement
        = appendExtrasStatements exs 0 (resolveDocument ctx E).statement := rfl
  rw [hs]
  rw [filterChangelog_diffStatements_append exs hnd hwf
    (resolveDocument ctx E).statement 0 (fun n => by rw [Nat.zero_add])]
  rfl

/-- Witness for C1: the assume-role baseline with extras appended to every
collection is accepted. -/
theorem awsValidationAcceptsSupersets_witness :
    ((resolveDocument exampleEnv
        constExpectedAssumeRolePolicyDocument).statement.map
          (fun s => s.sid)).Nodup
      ∧ (∀ s ∈ (resolveDocument exampleEnv
            constExpectedAssumeRolePolicyDocument).statement,
          statementWellFormed s)
      ∧ validatePolicyDocument exampleEnv
          (appendExtrasDocument exampleExtras
            (resolveDocument exampleEnv constExpectedAssumeRolePolicyDocument))
          constExpectedAssumeRolePolicyDocument = [] :=
  ⟨by decide, by decide,
   awsValidationAcceptsSupersets exampleEnv
     constExpectedAssumeRolePolicyDocument exampleExtras (by decide) (by decide)⟩

/-- C2: for every expected document whose placeholder-resolved form has
pairwise distinct statement SIDs, and every actual document formed from the
resolved form by genuinely removing or altering a required `Action` entry, a
`Condition` entry, or a scalar field (`Effect`, `Resource`,
`Principal.Federated`) of the statement at position `t`,
`validatePolicyDocument` returns a non-empty changelog, and it contains an
entry whose path names the altered statement's SID followed by the field
path of the difference. -/
theorem awsValidationRejectsDeficits (ctx : EnvContext)
    (E : RolePolicyDocument) (t : Nat) (d : Deficiency)
    (st : RolePolicyStatement) (sid : String)
    (hnd : ((resolveDocument ctx E).statement.map (fun s => s.sid)).Nodup)
    (hget : (resolveDocument ctx E).statement.get? t = some st)
    (hsid : st.sid = some sid)
    (hg : genuineDeficiency d st) :
    validatePolicyDocument ctx
        (mutateDocumentAt t d (resolveDocument ctx E)) E ≠ []
      ∧ ∃ c ∈ validatePolicyDocument ctx
            (mutateDocumentAt t d (resolveDocument ctx E)) E,
          ∃ rest, rest ≠ [] ∧ c.path = ["Statement", sid] ++ rest := by
  have hkey : statementKey t st = sid := by
    unfold statementKey
    rw [hsid]
  obtain ⟨c, hcmem, hcns, rest, hrne, hpath⟩ :=
    diffStatement_deficiency_detected sid st d hg
  have hA : (mutateDocumentAt t d (resolveDocument ctx E)).statement
      = (resolveDocument ctx E).statement.set t (applyDeficiency d st) := by
    unfold mutateDocumentAt
    rw [hget]
  have hfind := find?_set_applyDeficiency hnd d t st hget
  have hcomp : c ∈ (match ((resolveDocument ctx E).statement.set t
          (applyDeficiency d st)).find? (fun as => as.sid = st.sid) with
       | none =>
         ([⟨ChangeType.DELETE, ["Statement", statementKey (0 + t) st],
           none, none⟩] : List Change)
       | some as =>
         diffStatement ["Statement", statementKey (0 + t) st] st as) := by
    rw [hfind, Nat.zero_add, hkey]
    exact hcmem
  have hmem1 : c ∈ diffStatements
      ((resolveDocument ctx E).statement.set t (applyDeficiency d st)) 0
      (resolveDocument ctx E).statement :=
    mem_diffStatements (resolveDocument ctx E).statement 0 t st hget hcomp
  have hmem2 : c ∈ diffDocument (resolveDocument ctx E)
      (mutateDocumentAt t d (resolveDocument ctx E)) := by
    unfold diffDocument
    refine List.mem_append_right _ ?_
    rw [hA]
    exact hmem1
  have hmem3 : c ∈ validatePolicyDocument ctx
      (mutateDocumentAt t d (resolveDocument ctx E)) E :=
    mem_filterChangelog hmem2 hcns
  exact ⟨List.ne_nil_of_mem hmem3, c, hmem3, rest, hrne, hpath⟩

/-- Witness for C2: altering the `Resource` of the boundary document's
statement is rejected with an entry naming its SID. -/
theorem awsValidationRejectsDeficits_witness :
    ((resolveDocument exampleEnv
        constExpectedPolicyDocumentBoundary).statement.map
          (fun s => s.sid)).Nodup
      ∧ (validatePolicyDocument exampleEnv
            (mutateDocumentAt 0
              (Deficiency.alterResource "arn:aws:iam::1234567890:role/other")
              (resolveDocument exampleEnv constExpectedPolicyDocumentBoundary))
            constExpectedPolicyDocumentBoundary ≠ []
          ∧ ∃ c ∈ validatePolicyDocument exampleEnv
                (mutateDocumentAt 0
                  (Deficiency.alterResource "arn:aws:iam::1234567890:role/other")
                  (resolveDocument exampleEnv constExpectedPolicyDocumentBoundary))
                constExpectedPolicyDocumentBoundary,
              ∃ rest, rest ≠ []
                ∧ c.path = ["Statement", "AllowAllActionsApartFromListed"] ++ rest) :=
  ⟨by decide,
   awsValidationRejectsDeficits exampleEnv constExpectedPolicyDocumentBoundary
     0 (Deficiency.alterResource "arn:aws:iam::1234567890:role/other")
     (resolveStatement exampleEnv boundaryStatement)
     "AllowAllActionsApartFromListed"
     (by decide) (by decide) (by decide)
     ⟨"*", by decide, by decide⟩⟩

theorem diffStatements_append_unmatched {a : List RolePolicyStatement}
    {s : RolePolicyStatement} :
    ∀ (l : List RolePolicyStatement) (j : Nat),
      (∀ es ∈ l, ¬ (s.sid = es.sid)) →
      diffStatements (a ++ [s]) j l = diffStatements a j l := by
  intro l
  induction l with
  | nil => intro j _; rfl
  | cons es rest ih =>
    intro j h
    have hs : List.find? (fun as => as.sid = es.sid) [s] = none := by
      rw [List.find?_cons_of_neg _ (by
        simp only [decide_eq_true_eq]
        exact h es (List.mem_cons_self es rest))]
      rfl
    unfold diffStatements
    rw [List.find?_append, hs, Option.or_none,
      ih (j + 1) (fun es' hes' => h es' (List.mem_cons_of_mem _ hes'))]

/-- C3: during document comparison, only actual statements whose SID also
appears in the expected template are compared.  First part: appending to the
actual document a statement whose SID is absent from the expected template
leaves the validation result unchanged (it is ignored and never causes a
failure).  Second part: an expected statement whose SID is absent from the
actual document always makes validation fail. -/
theorem awsValidationSidMatching :
    (∀ (ctx : EnvContext) (E A : RolePolicyDocument)
        (s : RolePolicyStatement),
      s.sid ∉ (resolveDocument ctx E).statement.map (fun st => st.sid) →
      validatePolicyDocument ctx
          { A with statement := A.statement ++ [s] } E
        = validatePolicyDocument ctx A E)
    ∧ ∀ (ctx : EnvContext) (E A : RolePolicyDocument) (t : Nat)
        (es : RolePolicyStatement),
        (resolveDocument ctx E).statement.get? t = some es →
        es.sid ∉ A.statement.map (fun st => st.sid) →
        validatePolicyDocument ctx A E ≠ [] := by
  constructor
  · intro ctx E A s hs
    unfold validatePolicyDocument diffDocument
    have h1 : ({ A with statement := A.statement ++ [s] } :
        RolePolicyDocument).statement = A.statement ++ [s] := rfl
    rw [h1, diffStatements_append_unmatched (resolveDocument ctx E).statement 0
      (fun es hes hEq => hs (hEq ▸ List.mem_map_of_mem _ hes))]
  · intro ctx E A t es hget habs
    have hfind : A.statement.find? (fun as => as.sid = es.sid) = none := by
      rw [List.find?_eq_none]
      intro x hx
      simp only [decide_eq_true_eq]
      intro hEq
      exact habs (hEq ▸ List.mem_map_of_mem _ hx)
    have hcomp : (⟨ChangeType.DELETE, ["Statement", statementKey (0 + t) es],
        none, none⟩ : Change) ∈ (match A.statement.find?
            (fun as => as.sid = es.sid) with
         | none =>
           ([⟨ChangeType.DELETE, ["Statement", statementKey (0 + t) es],
             none, none⟩] : List Change)
         | some as =>
           diffStatement ["Statement", statementKey (0 + t) es] es as) := by
      rw [hfind]
      exact List.mem_cons_self _ _
    have hmem1 := mem_diffStatements (resolveDocument ctx E).statement 0 t es
      hget hcomp
    have hmem2 : (⟨ChangeType.DELETE, ["Statement", statementKey (0 + t) es],
        none, none⟩ : Change) ∈ diffDocument (resolveDocument ctx E) A := by
      unfold diffDocument
      exact List.mem_append_right _ hmem1
    have hmem3 := mem_filterChangelog hmem2 rfl
    exact List.ne_nil_of_mem hmem3

/-- Witness for C3: an extra actual statement with a fresh SID is ignored on
the assume-role baseline, and an empty actual document fails against the
boundary baseline. -/
theorem awsValidationSidMatching_witness :
    ((⟨none, none, none, none, none, none, some "ExtraStatement"⟩ :
          RolePolicyStatement).sid
        ∉ (resolveDocument exampleEnv
            constExpectedAssumeRolePolicyDocument).statement.map
              (fun st => st.sid)
      ∧ validatePolicyDocument exampleEnv
          { resolveDocument exampleEnv constExpectedAssumeRolePolicyDocument with
            statement :=
              (resolveDocument exampleEnv
                constExpectedAssumeRolePolicyDocument).statement
                ++ [⟨none, none, none, none, none, none, some "ExtraStatement"⟩] }
          constExpectedAssumeRolePolicyDocument
        = validatePolicyDocument exampleEnv
            (resolveDocument exampleEnv constExpectedAssumeRolePolicyDocument)
            constExpectedAssumeRolePolicyDocument)
      ∧ validatePolicyDocument exampleEnv
          { version := some "2012-10-17", statement := [] }
          constExpectedPolicyDocumentBoundary ≠ [] :=
  ⟨⟨by decide,
    awsValidationSidMatching.1 exampleEnv constExpectedAssumeRolePolicyDocument
      (resolveDocument exampleEnv constExpectedAssumeRolePolicyDocument)
      ⟨none, none, none, none, none, none, some "ExtraStatement"⟩ (by decide)⟩,
   awsValidationSidMatching.2 exampleEnv constExpectedPolicyDocumentBoundary
     { version := some "2012-10-17", statement := [] } 0
     (resolveStatement exampleEnv boundaryStatement) (by decide) (by decide)⟩

/-- C4: the claim states that placeholder resolution operates on a deep copy
and the package-level expected-document constants stay byte-for-byte
identical after `validatePolicyDocument` runs.  The code instead resolves
placeholders by writing through the statement pointers shared with the
constant, so after a single call with the example configuration the contents
reachable from `constExpectedAssumeRolePolicyDocument` differ from their
initial value (the `Principal.Federated` ARN and the `Condition.StringLike`
key now carry the substituted account id and OIDC id).  This contradicts the
constant's own source comment "Do not modify this variable, it is supposed
to be constant". -/
theorem expectedConstantMutatedInPlace :
    validatePolicyDocumentPostExpected exampleEnv
        constExpectedAssumeRolePolicyDocument
      ≠ constExpectedAssumeRolePolicyDocument := by
  decide

/-- C5: the polymorphic Action codec decodes the bare-string JSON form and
the one-element-array form to the same normalized list, and encodes a
one-element list as the bare string and a longer list as the array form. -/
theorem actionCodecRoundTrip :
    (∀ x : String,
      decodeActionOfObject [("Action", JsonValue.str x)] = some [x]
        ∧ decodeActionOfObject [("Action", JsonValue.arr [JsonValue.str x])]
            = some [x])
      ∧ (∀ x : String, marshalActionField (some [x]) = some (JsonValue.str x))
      ∧ (∀ l : List String, 2 ≤ l.length →
          marshalActionField (some l) = some (JsonValue.arr (l.map JsonValue.str))) := by
  refine ⟨fun x => ⟨rfl, rfl⟩, fun x => rfl, fun l hl => ?_⟩
  match l with
  | [] => simp at hl
  | [x] => simp at hl
  | x :: y :: rest => rfl

/-- Witness for C5 at concrete inputs. -/
theorem actionCodecRoundTrip_witness :
    (decodeActionOfObject
        [("Action", JsonValue.str "sts:AssumeRoleWithWebIdentity")]
      = some ["sts:AssumeRoleWithWebIdentity"]
        ∧ decodeActionOfObject
            [("Action", JsonValue.arr [JsonValue.str "sts:AssumeRoleWithWebIdentity"])]
          = some ["sts:AssumeRoleWithWebIdentity"])
      ∧ marshalActionField (some ["iam:PassRole"])
          = some (JsonValue.str "iam:PassRole")
      ∧ marshalActionField (some ["iam:Put*", "iam:Update*"])
          = some (JsonValue.arr [JsonValue.str "iam:Put*", JsonValue.str "iam:Update*"]) :=
  ⟨actionCodecRoundTrip.1 "sts:AssumeRoleWithWebIdentity",
   actionCodecRoundTrip.2.1 "iam:PassRole",
   actionCodecRoundTrip.2.2 ["iam:Put*", "iam:Update*"] (by decide)⟩

/-- C6 counterexample: the claim states that a present `Action` field that is
neither a string nor an array of strings yields a decode error.  Decoding
`{"Action": 42}` instead succeeds with the field left unset: the type switch
of `UnmarshalJSON` has no failing branch. -/
theorem actionDecodeSilentOnBadShape_counterexample :
    unmarshalActionFieldE (some (JsonValue.num 42)) = Except.ok none := rfl

/-- C6 amended: decoding a statement whose `Action` (or `NotAction`) field is
present but neither a string nor an array leaves the field unset and
produces no error; the codec never produces a decode error for any decoded
JSON shape. -/
theorem actionDecodeNeverErrors :
    (∀ v : JsonValue, isStrOrArr v = false →
        unmarshalActionFieldE (some v) = Except.ok none)
      ∧ ∀ v : Option JsonValue, ∃ r, unmarshalActionFieldE v = Except.ok r := by
  constructor
  · intro v h
    cases v <;> simp_all [isStrOrArr, unmarshalActionFieldE, unmarshalActionField]
  · intro v
    exact ⟨unmarshalActionField v, rfl⟩

/-- Witness for C6's amended theorem at a concrete input. -/
theorem actionDecodeNeverErrors_witness :
    isStrOrArr (JsonValue.num 7) = false
      ∧ unmarshalActionFieldE (some (JsonValue.num 7)) = Except.ok none :=
  ⟨rfl, actionDecodeNeverErrors.1 (JsonValue.num 7) rfl⟩

/-- C7 counterexample: the claim states the duplicate-permission guard is
used by both the Azure and the GCP checks.  The GCP check has no such guard:
on the observed permission line `"a;a"`, in which the name `a` occurs twice,
the GCP role check succeeds instead of failing with a duplicate-permission
error. -/
theorem gcpCheckNoDuplicateGuard_counterexample :
    gcpRoleCheckFromLine ["a"] "a;a" = Except.ok () := by decide

/-- C7 amended: only the Azure Crossplane role check has the duplicate
guard; whenever a permission name occurs twice in the observed actions, it
fails with the duplicate-permission error, pre-empting the
missing-permission computation.  The GCP check computes missing permissions
with no duplicate detection. -/
theorem azureDuplicateGuardPreemptsMissing
    (expected : List String) (perms : List (Option (List String)))
    (d : String)
    (hdup : firstDuplicate [] (azureObservedActions perms) = some d) :
    azureCrossplaneRoleCheck expected perms
      = Except.error AzureRoleError.duplicatePermission := by
  simp only [azureCrossplaneRoleCheck, hdup]

/-- Witness for C7's amended theorem: a duplicated action pre-empts the
missing-permission failure that the expected set would otherwise cause. -/
theorem azureDuplicateGuardPreemptsMissing_witness :
    firstDuplicate [] (azureObservedActions [some ["a", "a"]]) = some "a"
      ∧ azureCrossplaneRoleCheck ["z"] [some ["a", "a"]]
          = Except.error AzureRoleError.duplicatePermission :=
  ⟨by decide,
   azureDuplicateGuardPreemptsMissing ["z"] [some ["a", "a"]] "a" (by decide)⟩

/-- C8 counterexample: the claim states the GCP checker pod is deleted
before returning on every terminating run regardless of outcome.  On a run
where the pod reached the `Failed` phase with the single log line `"boom"`,
`Handle` returns the log-line error without deleting the pod. -/
theorem gcpPodNotDeletedOnFailure_counterexample :
    gcpHandleAfterWait ["a"] PodPhase.failed ["boom"]
      = some ⟨Except.error (GCPRoleError.podLogError "boom"), false⟩ := by
  decide

/-- C8 amended: on a terminating (non-panicking) run,
`GCPCrossplaneRoleChecker.Handle` deletes the checker pod before returning
exactly when the whole check succeeds; on the failure paths (excess log
lines, failed pod, missing permissions) the pod is left in place and is only
replaced at the start of the next invocation. -/
theorem gcpPodDeletedOnlyOnSuccess
    (expected : List String) (phase : PodPhase) (logs : List String)
    (r : GCPHandleResult)
    (h : gcpHandleAfterWait expected phase logs = some r) :
    r.podDeleted = true ↔ r.result = Except.ok () := by
  unfold gcpHandleAfterWait at h
  split at h
  · cases h
    simp
  · split at h
    · exact absurd h (by simp)
    · split at h
      · cases h
        simp
      · split at h <;> cases h <;> simp

/-- Witness for C8's amended theorem at a concrete successful run. -/
theorem gcpPodDeletedOnlyOnSuccess_witness :
    gcpHandleAfterWait ["a"] PodPhase.succeeded ["a"]
        = some ⟨Except.ok (), true⟩
      ∧ ((⟨Except.ok (), true⟩ : GCPHandleResult).podDeleted = true
          ↔ (⟨Except.ok (), true⟩ : GCPHandleResult).result = Except.ok ()) :=
  ⟨by decide,
   gcpPodDeletedOnlyOnSuccess ["a"] PodPhase.succeeded ["a"] _ (by decide)⟩

/-- C9 counterexample: the claim states the enclosing cloud checker's
`Handle` preserves the underlying cause of an inner crossplane-role check
failure.  `GCPChecker.Handle` maps two different inner causes to the same
bare sentinel, so the cause is discarded. -/
theorem gcpCheckerDiscardsCause_counterexample :
    gcpCheckerWrap (Except.error "role missing permissions: storage.buckets.create")
        = gcpCheckerWrap (Except.error "duplicate permission")
      ∧ gcpCheckerWrap
          (Except.error "role missing permissions: storage.buckets.create")
        = Except.error GCPOuterError.failedToCheckCrossplaneRole :=
  ⟨rfl, rfl⟩

/-- C9 amended: `AzureChecker.Handle` preserves the cause of an inner
crossplane-role failure by combining it with the sentinel
(`multierr.Combine`), while `GCPChecker.Handle` replaces any inner failure
by the bare sentinel `ErrFailedToCheckCrossplaneRole`, discarding the
cause. -/
theorem checkerErrorPropagation :
    (∀ (α : Type) (e : α),
      azureCheckerWrap (Except.error e)
        = Except.error (AzureOuterError.combinedFailedToCheck e))
      ∧ ∀ (α : Type) (e : α),
          gcpCheckerWrap (Except.error e)
            = Except.error GCPOuterError.failedToCheckCrossplaneRole :=
  ⟨fun _ _ => rfl, fun _ _ => rfl⟩

/-- Witness for C9's amended theorem at a concrete inner error. -/
theorem checkerErrorPropagation_witness :
    azureCheckerWrap (Except.error "role ID not found")
        = Except.error (AzureOuterError.combinedFailedToCheck "role ID not found")
      ∧ gcpCheckerWrap (Except.error "got more than 1 log line")
          = Except.error GCPOuterError.failedToCheckCrossplaneRole :=
  ⟨checkerErrorPropagation.1 String "role ID not found",
   checkerErrorPropagation.2 String "got more than 1 log line"⟩

/-- C10: if the checker pod terminates while `PodLogs` returns no non-blank
log line, `GCPCrossplaneRoleChecker.Handle` panics with an
index-out-of-range on `logs[0]` (modelled as `none`): the guard at line 238
only rejects more than one line. -/
theorem gcpHandlePanicsOnEmptyLogs
    (expected : List String) (phase : PodPhase) :
    gcpHandleAfterWait expected phase [] = none := rfl

/-- Witness for C10 at a concrete instantiation. -/
theorem gcpHandlePanicsOnEmptyLogs_witness :
    gcpHandleAfterWait ["iam.roles.get"] PodPhase.succeeded [] = none :=
  gcpHandlePanicsOnEmptyLogs ["iam.roles.get"] PodPhase.succeeded

end PrivateCloud
